import Mathlib

/-!
# Verification of the `numpython` matrix container (`src/numpython/base.py`)

Shallow embedding of the `Pymatrix` class.  Python floats are modelled as
rationals (`ℚ`): the code only stores, copies and compares element values, it
never performs float arithmetic, so the exact representation is irrelevant
(IEEE special values are out of scope).  Python exceptions are modelled by an
error type `PyErr` and fallible operations return `Except PyErr _`.

The dynamically typed values that reach `Pymatrix.__init__` and the slicing
path of `__getitem__` are floats and lists of floats (the class contract is
`data : list[list[float]]`, and slicing produces either rows or flat float
lists).  `Cell` models this one-level union: an element of a Python list that
is either a float or a list of floats.

Two models are used:
* a functional model (`pymatrixInit`, `pymatrixGetitem`, `pymatrixZeros`,
  `pymatrixTranspose`, `pymatrixEq`) for the value-level behaviour, and
* a heap model (`Heap`, `HMatrix`, `hInit`, `hSetRow`, `hCopy`) for the
  claims about aliasing and mutation, in which the outer row list of a
  matrix is a heap-allocated object referenced by index.  Row objects are
  modelled as immutable values because the only mutation the class offers,
  `__setitem__`, replaces a whole entry of the outer list and never mutates
  a row object in place.
-/

deriving instance DecidableEq for Except

/-- Python exceptions raised by the code under study. -/
inductive PyErr where
  | valueError   -- `ValueError` (the spec's `ShapeError`)
  | indexError   -- `IndexError`
  | typeError    -- `TypeError` (e.g. `len()` of a float)
deriving DecidableEq

/-- An element of a Python list as seen by `Pymatrix.__init__` and the
slicing code: either a float or a list of floats (a row). -/
inductive Cell where
  | num (x : ℚ)
  | lst (xs : List ℚ)
deriving DecidableEq, Inhabited

/-- `len(c)`: succeeds on a list, raises `TypeError` on a float. -/
def cellLen : Cell → Except PyErr Nat
  | .num _ => .error .typeError
  | .lst xs => .ok xs.length

/-- The list of floats held by a row cell (`[]` for a float; only used on
cells that already passed `len()`, which guarantees they are lists). -/
def cellRow : Cell → List ℚ
  | .num _ => []
  | .lst xs => xs

/-- CPython index normalisation for a sequence of length `n`: a negative
index counts from the end. -/
def pyNormIdx (n : Nat) (i : Int) : Int := if i < 0 then i + n else i

/-- CPython indexing `xs[i]` for a list: a negative index counts from the
end; an index outside the list raises `IndexError` (`getD`'s default is
unreachable under the range guard). -/
def pyIndex {α : Type} [Inhabited α] (xs : List α) (i : Int) : Except PyErr α :=
  if 0 ≤ pyNormIdx xs.length i ∧ pyNormIdx xs.length i < (xs.length : Int) then
    .ok (xs.getD (pyNormIdx xs.length i).toNat default)
  else
    .error .indexError

/-- CPython item assignment `xs[i] = v` for a list: same index
normalisation as `pyIndex`; never changes the length. -/
def pyListSet {α : Type} (xs : List α) (i : Int) (v : α) : Except PyErr (List α) :=
  if 0 ≤ pyNormIdx xs.length i ∧ pyNormIdx xs.length i < (xs.length : Int) then
    .ok (xs.set (pyNormIdx xs.length i).toNat v)
  else
    .error .indexError

/-- A Python slice `start:stop` (step 1, as used throughout the source). -/
structure PySlice where
  start : Option Int
  stop : Option Int
deriving DecidableEq

/-- CPython slice-bound normalisation against a list of length `n`:
a missing bound takes the default, a negative bound counts from the end
clamped at 0, a non-negative bound is clamped at `n`. -/
def sliceBound (n : Nat) (dflt : Nat) : Option Int → Nat
  | none => dflt
  | some i => if i < 0 then (i + (n : Int)).toNat else min i.toNat n

/-- CPython slicing `xs[start:stop]`: the elements with (normalised)
positions in `[lo, hi)`; never raises. -/
def sliceList {α : Type} (xs : List α) (s : PySlice) : List α :=
  (xs.take (sliceBound xs.length xs.length s.stop)).drop
    (sliceBound xs.length 0 s.start)

/-- The matrix object.  The source stores `rows`, `cols` and `shape` at
construction; they are always equal to the derived values below (`__init__`
computes them from `data`, and `__setitem__` preserves both the row count
and — thanks to its length check — the length of every row), so the
embedding derives them from `data` instead of carrying redundant fields. -/
structure Pymatrix where
  data : List (List ℚ)
deriving DecidableEq

/-- `self.rows = len(data)`. -/
def Pymatrix.rows (m : Pymatrix) : Nat := m.data.length

/-- `self.cols = len(data[0])`. -/
def Pymatrix.cols (m : Pymatrix) : Nat := (m.data.headD []).length

/-- Element at row `i`, column `j` (total, with junk defaults outside the
matrix; theorems only use it in range). -/
def Pymatrix.entry (m : Pymatrix) (i j : Nat) : ℚ := (m.data.getD i []).getD j 0

/-- Rectangularity: every row has exactly `cols` elements.  Every matrix the
source can construct satisfies this. -/
def Pymatrix.Rect (m : Pymatrix) : Prop := ∀ r ∈ m.data, r.length = m.cols

instance (m : Pymatrix) : Decidable m.Rect := by
  unfold Pymatrix.Rect; infer_instance

/-- The generator `all(len(row) == len(data[0]) for row in data)` of
`__init__`, with CPython's evaluation order: `len(row)` may raise
`TypeError` (stopping the loop), and the first row failing the comparison
short-circuits to `False`. -/
def rowsAllEq : List Cell → Nat → Except PyErr Bool
  | [], _ => .ok true
  | r :: rest, c0 =>
    match cellLen r with
    | .error e => .error e
    | .ok lr => if lr = c0 then rowsAllEq rest c0 else .ok false

/-- `Pymatrix.__init__(data)` applied to a Python list `data`:

    if not data or not all(len(row) == len(data[0]) for row in data):
        raise ValueError(...)
    self.data = data

An empty list is falsy, so `[]` raises `ValueError`.  Otherwise the
generator's first iteration evaluates `len(data[0])` — a `TypeError` if
`data[0]` is a float — and every row's length is compared to it.  On
success every row passed `len()`, hence is a list, and `data` is stored
as the backing buffer. -/
def pymatrixInit (data : List Cell) : Except PyErr Pymatrix :=
  match data with
  | [] => .error .valueError
  | d0 :: rest =>
    match cellLen d0 with
    | .error e => .error e
    | .ok c0 =>
      match rowsAllEq (d0 :: rest) c0 with
      | .error e => .error e
      | .ok true => .ok ⟨(d0 :: rest).map cellRow⟩
      | .ok false => .error .valueError

/-- `Pymatrix(v)` applied to a single Python value that is a float or a
flat list of floats (reached when `__getitem__` builds `Pymatrix(sliced)`
with `sliced` not a list of rows).  A float argument: `not v` is truthy
for `0.0` (`ValueError`), otherwise iterating the float in the generator
raises `TypeError`. -/
def pymatrixInitVal : Cell → Except PyErr Pymatrix
  | .num x => if x = 0 then .error .valueError else .error .typeError
  | .lst xs => pymatrixInit (xs.map Cell.num)

/-- `Pymatrix.zeros(rows, cols)`: `cls([[0.0] * cols for _ in range(rows)])`.
`range(rows)` is empty for `rows ≤ 0` and `[0.0] * cols` is empty for
`cols ≤ 0`, which `Int.toNat` captures. -/
def pymatrixZeros (rows cols : Int) : Except PyErr Pymatrix :=
  pymatrixInit (List.replicate rows.toNat (Cell.lst (List.replicate cols.toNat 0)))

/-- A single axis selector appearing inside a tuple index: a Python int or
a slice. -/
inductive PyIdx where
  | int (i : Int)
  | slice (s : PySlice)
deriving DecidableEq

/-- The argument of `Pymatrix.__getitem__`: either a bare index `m[idx]`
or a tuple `m[r, c]`. -/
inductive GetArg where
  | single (idx : PyIdx)
  | pair (r c : PyIdx)
deriving DecidableEq

/-- The possible results of `Pymatrix.__getitem__`: a float (`data[i][j]`),
a row (`data[i]`, a plain Python list), a plain list of rows
(`data[a:b]` for a bare slice index), or a freshly built `Pymatrix`. -/
inductive GetRes where
  | val (x : ℚ)
  | row (r : List ℚ)
  | rowList (rs : List (List ℚ))
  | mat (m : Pymatrix)
deriving DecidableEq

/-- `row[col_idx]` inside the comprehension
`[row[col_idx] for row in rows]`: subscripting one element of `rows` with
the column selector.  A float element is not subscriptable
(`TypeError`); a row yields an element (possibly `IndexError`) or a
sub-list. -/
def cellSubscript (c : Cell) (idx : PyIdx) : Except PyErr Cell :=
  match c, idx with
  | .num _, _ => .error .typeError
  | .lst xs, .int i =>
    match pyIndex xs i with
    | .error e => .error e
    | .ok x => .ok (.num x)
  | .lst xs, .slice s => .ok (.lst (sliceList xs s))

/-- Lines 108–114 of `__getitem__` (the tuple case with at least one
slice):

    rows = self.data[row_idx]
    if isinstance(rows[0], list):
        sliced = [row[col_idx] for row in rows]
    else:
        sliced = rows[col_idx]
    return Pymatrix(sliced)

`rows` is a Python list either way: for an int `row_idx` it is the selected
row (a list of floats, so its cells are `Cell.num`), for a slice it is the
selected list of rows (cells are `Cell.lst`).  `rows[0]` on an empty list
raises `IndexError`. -/
def pymatrixGetSlice (m : Pymatrix) (rIdx cIdx : PyIdx) : Except PyErr Pymatrix :=
  let rowsE : Except PyErr (List Cell) :=
    match rIdx with
    | .int i =>
      match pyIndex m.data i with
      | .error e => .error e
      | .ok r => .ok (r.map Cell.num)
    | .slice s => .ok ((sliceList m.data s).map Cell.lst)
  match rowsE with
  | .error e => .error e
  | .ok [] => .error .indexError      -- rows[0] on an empty list
  | .ok (r0 :: rest) =>
    match r0 with
    | .lst _ =>                       -- isinstance(rows[0], list)
      match (r0 :: rest).mapM (fun row => cellSubscript row cIdx) with
      | .error e => .error e
      | .ok sliced => pymatrixInit sliced
    | .num _ =>                       -- sliced = rows[col_idx]
      match cIdx with
      | .slice s => pymatrixInit (sliceList (r0 :: rest) s)
      | .int i =>                     -- unreachable from __getitem__: the
                                      -- all-int tuple is handled earlier
        match pyIndex (r0 :: rest) i with
        | .error e => .error e
        | .ok c => pymatrixInitVal c

/-- `Pymatrix.__getitem__`:

* tuple of two ints — `self.data[row_idx][col_idx]`;
* tuple with at least one slice — the slicing path above;
* bare int — `self.data[idx]`, the row object itself;
* bare slice — `self.data[idx]`, a plain list of rows (not a `Pymatrix`). -/
def pymatrixGetitem (m : Pymatrix) (arg : GetArg) : Except PyErr GetRes :=
  match arg with
  | .pair (.int i) (.int j) =>
    match pyIndex m.data i with
    | .error e => .error e
    | .ok r =>
      match pyIndex r j with
      | .error e => .error e
      | .ok x => .ok (.val x)
  | .pair rIdx cIdx =>
    match pymatrixGetSlice m rIdx cIdx with
    | .error e => .error e
    | .ok p => .ok (.mat p)
  | .single (.int i) =>
    match pyIndex m.data i with
    | .error e => .error e
    | .ok r => .ok (.row r)
  | .single (.slice s) => .ok (.rowList (sliceList m.data s))

/-- A Python operand handed to `Pymatrix.__eq__`. -/
inductive PyObj where
  | mat (m : Pymatrix)
  | float (x : ℚ)
  | str (s : String)
  | pylist (xs : List Cell)
deriving DecidableEq

/-- `Pymatrix.__eq__`: `False` for a non-`Pymatrix` operand, otherwise
`self.data == other.data` (Python list equality, i.e. structural equality
of the nested lists).  Total — comparison never raises. -/
def pymatrixEq (m : Pymatrix) (other : PyObj) : Bool :=
  match other with
  | .mat m2 => decide (m.data = m2.data)
  | _ => false

/-- Length of `zip(*data)`: the minimum of the row lengths (`0` when there
are no rows, since `zip()` of nothing is empty). -/
def pyZipLen (d : List (List ℚ)) : Nat :=
  match d with
  | [] => 0
  | r :: rs => rs.foldl (fun acc row => min acc row.length) r.length

/-- `list(zip(*data))`: tuple `k` collects element `k` of every row, for
`k` below every row length. -/
def pyZipStar (d : List (List ℚ)) : List (List ℚ) :=
  (List.range (pyZipLen d)).map (fun k => d.map (fun row => row.getD k 0))

/-- `Pymatrix.transpose`:

    transposed = list(zip(*self.data))
    return Pymatrix([list(row) for row in transposed])
-/
def pymatrixTranspose (m : Pymatrix) : Except PyErr Pymatrix :=
  pymatrixInit ((pyZipStar m.data).map Cell.lst)

/-! ## Heap model

Reference semantics for the claims about aliasing and mutation.  A `Heap`
holds the outer row-list objects; `Pymatrix.__init__` stores a *reference*
to the caller's list (`self.data = data`, no copy), `copy` allocates a
fresh object, and `__setitem__` writes through the reference.  Matrices in
this model are float matrices (the class contract), so `__init__`'s
validation reduces to the emptiness and equal-row-length checks. -/

/-- The heap: row-list objects indexed by their reference (a `Nat`). -/
structure Heap where
  objs : List (List (List ℚ))
deriving DecidableEq

/-- Dereference a row-list object. -/
def Heap.get (h : Heap) (r : Nat) : List (List ℚ) := h.objs.getD r []

/-- A `Pymatrix` instance under reference semantics: its own identity
`tag` (Python object id, no behavioural role), the reference to its
backing buffer, and the `rows`/`cols` stored at construction. -/
structure HMatrix where
  tag : Nat
  dataRef : Nat
  rows : Nat
  cols : Nat
deriving DecidableEq

/-- The observable contents of a matrix: its backing buffer in the heap. -/
def hData (m : HMatrix) (h : Heap) : List (List ℚ) := h.get m.dataRef

/-- `Pymatrix.__init__` under reference semantics: validate the list
object behind `ref` and store the reference itself (`self.data = data`).
`tag` is the identity of the new instance. -/
def hInit (tag : Nat) (ref : Nat) (h : Heap) : Except PyErr HMatrix :=
  let d := h.get ref
  match d with
  | [] => .error .valueError
  | d0 :: _ =>
    if d.all (fun row => row.length = d0.length) then
      .ok ⟨tag, ref, d.length, d0.length⟩
    else
      .error .valueError

/-- `Pymatrix.__setitem__` under reference semantics:

    if len(value) != self.cols:
        raise ValueError("Invalid row size")
    self.data[idx] = value

The length check precedes the assignment, so an error leaves the heap
untouched; on success only the backing buffer of `m` is written. -/
def hSetRow (m : HMatrix) (idx : Int) (value : List ℚ) (h : Heap) :
    Except PyErr Heap :=
  if value.length ≠ m.cols then .error .valueError
  else
    match pyListSet (hData m h) idx value with
    | .error e => .error e
    | .ok d => .ok ⟨h.objs.set m.dataRef d⟩

/-- `Pymatrix.copy`: `Pymatrix([row[:] for row in self.data])` — a fresh
outer list of fresh row copies (rows are modelled as values, so `row[:]`
is the identity on values), allocated as a new heap object at the next
free slot and passed through `Pymatrix.__init__` (which re-validates). -/
def hCopy (m : HMatrix) (h : Heap) : Except PyErr (HMatrix × Heap) :=
  let d := (hData m h).map (fun row => row.drop 0)
  let h' : Heap := ⟨h.objs ++ [d]⟩
  match hInit h.objs.length h.objs.length h' with
  | .error e => .error e
  | .ok c => .ok (c, h')

/-- `Pymatrix.__eq__` between two matrix instances under reference
semantics: `self.data == other.data`. -/
def hEq (m1 m2 : HMatrix) (h : Heap) : Bool :=
  decide (hData m1 h = hData m2 h)

/-! ## Helper lemmas -/

/-- `getD` after `set` at a different position is unchanged. -/
theorem getD_set_ne {α : Type} (l : List α) (i j : Nat) (v : α) (d : α)
    (hij : i ≠ j) : (l.set i v).getD j d = l.getD j d := by
  rw [List.getD_eq_getElem?_getD, List.getD_eq_getElem?_getD,
    List.getElem?_set_ne hij]

/-- `getD` after `set` at the same (in-range) position yields the new
value. -/
theorem getD_set_self {α : Type} (l : List α) (i : Nat) (v : α) (d : α)
    (hi : i < l.length) : (l.set i v).getD i d = v := by
  rw [List.getD_eq_getElem?_getD, List.getElem?_set_eq_of_lt v hi,
    Option.getD_some]

/-- `pyIndex` succeeds exactly when the normalised index is in range, and
then returns the element at the normalised position. -/
theorem pyIndex_ok {α : Type} [Inhabited α] (xs : List α) (i : Int)
    (h0 : 0 ≤ pyNormIdx xs.length i)
    (h1 : pyNormIdx xs.length i < (xs.length : Int)) :
    pyIndex xs i = .ok (xs.getD (pyNormIdx xs.length i).toNat default) := by
  unfold pyIndex
  rw [if_pos ⟨h0, h1⟩]

/-- `pyIndex` raises `IndexError` when the normalised index is out of
range. -/
theorem pyIndex_err {α : Type} [Inhabited α] (xs : List α) (i : Int)
    (h : ¬(0 ≤ pyNormIdx xs.length i ∧
      pyNormIdx xs.length i < (xs.length : Int))) :
    pyIndex xs i = .error .indexError := by
  unfold pyIndex
  rw [if_neg h]

/-- `rowsAllEq` returns `ok true` when every cell is a row of length `c0`. -/
theorem rowsAllEq_ok_true (ds : List Cell) (c0 : Nat)
    (h : ∀ d ∈ ds, ∃ xs, d = Cell.lst xs ∧ xs.length = c0) :
    rowsAllEq ds c0 = .ok true := by
  induction ds with
  | nil => rfl
  | cons r rest ih =>
    obtain ⟨xs, hx, hlen⟩ := h r (List.mem_cons_self r rest)
    subst hx
    simp only [rowsAllEq, cellLen]
    rw [if_pos hlen]
    exact ih (fun d hd => h d (List.mem_cons_of_mem _ hd))

/-- `Pymatrix.__init__` on a non-empty rectangular list of rows succeeds
and stores the rows as the backing data. -/
theorem pymatrixInit_map_lst (rows : List (List ℚ)) (hne : rows ≠ [])
    (hrect : ∀ r ∈ rows, r.length = (rows.headD []).length) :
    pymatrixInit (rows.map Cell.lst) = .ok ⟨rows⟩ := by
  cases rows with
  | nil => exact absurd rfl hne
  | cons r0 rest =>
    have hall : rowsAllEq ((r0 :: rest).map Cell.lst) r0.length = .ok true := by
      apply rowsAllEq_ok_true
      intro d hd
      obtain ⟨r, hr, hdr⟩ := List.mem_map.mp hd
      exact ⟨r, hdr.symm, hrect r hr⟩
    have hmap : (List.map Cell.lst (r0 :: rest)).map cellRow = r0 :: rest := by
      rw [List.map_map]
      exact List.map_id'' (fun r => rfl) _
    simp only [List.map_cons, pymatrixInit, cellLen]
    rw [show Cell.lst r0 :: List.map Cell.lst rest
        = List.map Cell.lst (r0 :: rest) from rfl, hall]
    show Except.ok (Pymatrix.mk (List.map cellRow (List.map Cell.lst (r0 :: rest))))
      = Except.ok (Pymatrix.mk (r0 :: rest))
    rw [hmap]

/-- Folding `min` over lengths that all equal the accumulator is the
identity. -/
theorem foldl_min_const (rs : List (List ℚ)) (c : Nat)
    (h : ∀ r ∈ rs, r.length = c) :
    rs.foldl (fun acc row => min acc row.length) c = c := by
  induction rs with
  | nil => rfl
  | cons r rest ih =>
    simp only [List.foldl_cons]
    rw [h r (List.mem_cons_self _ _), min_self]
    exact ih (fun x hx => h x (List.mem_cons_of_mem _ hx))

/-- On a non-empty rectangular row list, `zip(*data)` has one tuple per
column. -/
theorem pyZipLen_eq (d : List (List ℚ)) (c : Nat) (hne : d ≠ [])
    (hrect : ∀ r ∈ d, r.length = c) : pyZipLen d = c := by
  cases d with
  | nil => exact absurd rfl hne
  | cons r rs =>
    show List.foldl (fun acc row => min acc row.length) r.length rs = c
    rw [hrect r (List.mem_cons_self _ _)]
    exact foldl_min_const rs c (fun x hx => hrect x (List.mem_cons_of_mem _ hx))

/-- Length of `zip(*data)`. -/
theorem pyZipStar_length (d : List (List ℚ)) :
    (pyZipStar d).length = pyZipLen d := by
  unfold pyZipStar
  rw [List.length_map, List.length_range]

/-- Tuple `j` of `zip(*data)` collects element `j` of every row. -/
theorem pyZipStar_getD (d : List (List ℚ)) (j : Nat) (hj : j < pyZipLen d) :
    (pyZipStar d).getD j [] = d.map (fun row => row.getD j 0) := by
  unfold pyZipStar
  rw [List.getD_eq_getElem _ _ (by simpa using hj), List.getElem_map,
    List.getElem_range]

/-- Element `i` of tuple `j` of `zip(*data)` is element `j` of row `i`. -/
theorem pyZipStar_entry (d : List (List ℚ)) (j i : Nat)
    (hj : j < pyZipLen d) (hi : i < d.length) :
    ((pyZipStar d).getD j []).getD i 0 = (d.getD i []).getD j 0 := by
  rw [pyZipStar_getD d j hj,
    List.getD_eq_getElem _ _ (by simpa using hi), List.getElem_map,
    List.getD_eq_getElem _ _ hi]

/-- Structural equality of the backing lists of two rectangular matrices
is the same as equality of shape plus pointwise equality of entries. -/
theorem pymatrix_data_eq_iff (m m2 : Pymatrix)
    (hm : m.Rect) (hm2 : m2.Rect) :
    m.data = m2.data ↔
      (m.rows = m2.rows ∧ m.cols = m2.cols ∧
        ∀ i, i < m.rows → ∀ j, j < m.cols → m.entry i j = m2.entry i j) := by
  constructor
  · intro h
    refine ⟨?_, ?_, ?_⟩
    · unfold Pymatrix.rows; rw [h]
    · unfold Pymatrix.cols; rw [h]
    · intro i _ j _; unfold Pymatrix.entry; rw [h]
  · rintro ⟨hr, hc, he⟩
    apply List.ext_getElem
    · exact hr
    · intro i h1 h2
      have l1 : (m.data.get ⟨i, h1⟩).length = m.cols :=
        hm _ (List.get_mem _ _ _)
      have l2 : (m2.data.get ⟨i, h2⟩).length = m2.cols :=
        hm2 _ (List.get_mem _ _ _)
      apply List.ext_getElem
      · rw [List.get_eq_getElem] at l1 l2
        rw [l1, l2, hc]
      · intro j hj1 hj2
        have hj : j < m.cols := by
          rw [List.get_eq_getElem] at l1
          rwa [l1] at hj1
        have hent := he i h1 j hj
        unfold Pymatrix.entry at hent
        rw [List.getD_eq_getElem _ _ h1, List.getD_eq_getElem _ _ h2,
          List.getD_eq_getElem _ _ hj1, List.getD_eq_getElem _ _ hj2] at hent
        exact hent

/-- Writing through one matrix's buffer reference does not change the
contents seen through a different buffer reference. -/
theorem hSetRow_frame (m1 m2 : HMatrix) (h h' : Heap) (i : Int)
    (v : List ℚ) (hne : m1.dataRef ≠ m2.dataRef)
    (hs : hSetRow m1 i v h = .ok h') :
    hData m2 h' = hData m2 h := by
  unfold hSetRow at hs
  by_cases hl : v.length ≠ m1.cols
  · rw [if_pos hl] at hs
    exact absurd hs (by simp)
  · rw [if_neg hl] at hs
    cases hps : pyListSet (hData m1 h) i v with
    | error e => rw [hps] at hs; exact absurd hs (by simp)
    | ok dd =>
      rw [hps] at hs
      have hh : (⟨h.objs.set m1.dataRef dd⟩ : Heap) = h' := by
        injection hs
      rw [← hh]
      unfold hData Heap.get
      exact getD_set_ne _ _ _ _ _ hne

/-- `row[:]` on every row is the identity on the modelled row values. -/
theorem map_drop_zero (l : List (List ℚ)) :
    l.map (fun row => row.drop 0) = l := by
  exact List.map_id'' (fun r => List.drop_zero r) l

/-- The default-valued head of a non-empty list is a member. -/
theorem headD_mem {α : Type} (l : List α) (d : α) (h : l ≠ []) :
    l.headD d ∈ l := by
  cases l with
  | nil => exact absurd rfl h
  | cons a t => exact List.mem_cons_self _ _

/-- Unfolding of `__getitem__` on an all-int tuple index. -/
theorem pymatrixGetitem_intint (m : Pymatrix) (i j : Int) :
    pymatrixGetitem m (.pair (.int i) (.int j)) =
      match pyIndex m.data i with
      | .error e => .error e
      | .ok r =>
        match pyIndex r j with
        | .error e => .error e
        | .ok x => .ok (.val x) := rfl

/-! ## Claims -/

/-- The running example matrix `Pymatrix([[1,2,3],[4,5,6]])` from the
spec. -/
def mEx : Pymatrix := ⟨[[1, 2, 3], [4, 5, 6]]⟩

/-- C1: the spec claims that a tuple access with exactly one scalar axis
and one slice axis returns a 1×k (scalar row, slice column) or k×1
(slice row, scalar column) matrix.  The code instead raises `TypeError`
on both: the intermediate `sliced` is a flat list of floats that is
passed to `Pymatrix(...)` without the promised promotion, and the
constructor's `len(row)` call on a float fails.  This theorem evaluates
the code at the failing inputs `M[0, 0:2]` and `M[0:2, 0]` on the
well-formed matrix `[[1,2,3],[4,5,6]]`. -/
theorem C1_mixed_axis_access_raises_typeerror :
    pymatrixGetitem mEx (.pair (.int 0) (.slice ⟨some 0, some 2⟩))
      = .error .typeError ∧
    pymatrixGetitem mEx (.pair (.slice ⟨some 0, some 2⟩) (.int 0))
      = .error .typeError := by
  exact ⟨rfl, rfl⟩

/-- C2: the spec claims `rows ≥ 1`, `cols ≥ 1`, with every violating
construction input (empty input, empty rows, ragged rows) rejected.
The code rejects `[]` and ragged input, but accepts `[[]]` — a matrix
with one empty row — because `not data or not all(len(row) ==
len(data[0]) for row in data)` never checks that rows are non-empty,
contradicting the constructor's own error message ("All rows must have
the same length and be non-empty.").  The resulting instance has
`cols = 0`, breaking the claimed invariant. -/
theorem C2_empty_row_accepted :
    pymatrixInit [] = .error .valueError ∧
    pymatrixInit [Cell.lst [1, 2], Cell.lst [3]] = .error .valueError ∧
    pymatrixInit [Cell.lst []] = .ok ⟨[[]]⟩ ∧
    (Pymatrix.mk [[]]).rows = 1 ∧ (Pymatrix.mk [[]]).cols = 0 := by
  exact ⟨rfl, rfl, rfl, rfl, rfl⟩

/-- C3 counterexample: the claim says `Zeros(rows, cols)` fails with
`ShapeError` whenever `cols ≤ 0`, but `zeros(1, 0)` succeeds and returns
the matrix `[[]]` of shape `(1, 0)`. -/
theorem C3_zeros_cols_zero_succeeds :
    pymatrixZeros 1 0 = .ok ⟨[[]]⟩ := rfl

/-- C3 (amended): for `rows ≥ 1` and `cols ≥ 1`, `zeros` produces the
`rows × cols` matrix of `0.0`s; for `rows ≤ 0` it fails with the
`ShapeError` (`ValueError`) — only because the row list is then empty —
but for `cols ≤ 0` with `rows ≥ 1` it succeeds and returns `rows` empty
rows (shape `(rows, 0)`), with no validation of non-positive
dimensions. -/
theorem C3_zeros_amended (r c : Int) :
    (0 < r → 0 < c →
      pymatrixZeros r c
        = .ok ⟨List.replicate r.toNat (List.replicate c.toNat 0)⟩ ∧
      ((Pymatrix.mk (List.replicate r.toNat (List.replicate c.toNat 0))).rows
        : Int) = r ∧
      ((Pymatrix.mk (List.replicate r.toNat (List.replicate c.toNat 0))).cols
        : Int) = c ∧
      ∀ i, i < r.toNat → ∀ j, j < c.toNat →
        (Pymatrix.mk
          (List.replicate r.toNat (List.replicate c.toNat 0))).entry i j = 0)
    ∧ (r ≤ 0 → pymatrixZeros r c = .error .valueError)
    ∧ (0 < r → c ≤ 0 →
        pymatrixZeros r c = .ok ⟨List.replicate r.toNat []⟩) := by
  have hinit : ∀ rn : Nat, 0 < rn → ∀ row : List ℚ,
      pymatrixInit (List.replicate rn (Cell.lst row))
        = .ok ⟨List.replicate rn row⟩ := by
    intro rn hrn row
    rw [← List.map_replicate]
    apply pymatrixInit_map_lst
    · exact List.ne_nil_of_length_pos (by simpa using hrn)
    · intro x hx
      rw [List.eq_of_mem_replicate hx]
      cases rn with
      | zero => omega
      | succ n => rfl
  refine ⟨?_, ?_, ?_⟩
  · intro hr hc
    have hrn : 0 < r.toNat := by omega
    refine ⟨hinit r.toNat hrn (List.replicate c.toNat 0), ?_, ?_, ?_⟩
    · show ((List.replicate r.toNat (List.replicate c.toNat (0:ℚ))).length
        : Int) = r
      rw [List.length_replicate]
      omega
    · show (((List.replicate r.toNat
        (List.replicate c.toNat (0:ℚ))).headD []).length : Int) = c
      cases hrn' : r.toNat with
      | zero => omega
      | succ n =>
        show (((List.replicate (n+1) (List.replicate c.toNat (0:ℚ))).headD
          []).length : Int) = c
        rw [List.replicate_succ, List.headD_cons, List.length_replicate]
        omega
    · intro i hi j hj
      unfold Pymatrix.entry
      show (((List.replicate r.toNat
        (List.replicate c.toNat (0:ℚ))).getD i []).getD j 0) = 0
      rw [List.getD_eq_getElem
        (List.replicate r.toNat (List.replicate c.toNat (0:ℚ))) []
        (by simpa using hi)]
      rw [List.getElem_replicate]
      rw [List.getD_eq_getElem (List.replicate c.toNat (0:ℚ)) 0
        (by simpa using hj)]
      rw [List.getElem_replicate]
  · intro hr
    have : r.toNat = 0 := by omega
    unfold pymatrixZeros
    rw [this]
    rfl
  · intro hr hc
    have hc0 : c.toNat = 0 := by omega
    unfold pymatrixZeros
    rw [hc0]
    exact hinit r.toNat (by omega) []

/-- C3 witness: `zeros(2, 3)` is the 2×3 zero matrix. -/
theorem C3_zeros_amended_witness :
    pymatrixZeros 2 3
      = .ok ⟨List.replicate (2:Int).toNat (List.replicate (3:Int).toNat 0)⟩ :=
  ((C3_zeros_amended 2 3).1 (by decide) (by decide)).1

/-- C6: equality returns `True` exactly for a `Pymatrix` operand with
identical shape and elementwise equal entries (the code compares the
nested data lists structurally, which on rectangular matrices is the
same thing), and returns `False` — without raising — on every
non-matrix operand.  Exactness of the element comparison is Python
float `==`, modelled as equality on `ℚ`. -/
theorem C6_eq_shape_and_elements (m m2 : Pymatrix)
    (hm : m.Rect) (hm2 : m2.Rect) :
    (pymatrixEq m (.mat m2) = true ↔
      (m.rows = m2.rows ∧ m.cols = m2.cols ∧
        ∀ i, i < m.rows → ∀ j, j < m.cols → m.entry i j = m2.entry i j))
    ∧ (∀ x, pymatrixEq m (.float x) = false)
    ∧ (∀ s, pymatrixEq m (.str s) = false)
    ∧ (∀ xs, pymatrixEq m (.pylist xs) = false) := by
  refine ⟨?_, fun _ => rfl, fun _ => rfl, fun _ => rfl⟩
  rw [show pymatrixEq m (.mat m2) = decide (m.data = m2.data) from rfl,
    decide_eq_true_iff]
  exact pymatrix_data_eq_iff m m2 hm hm2

/-- C6 witness: `Matrix([[1,2]]) == Matrix([[1,2]])` is `True`, and a
string operand compares `False`. -/
theorem C6_eq_witness :
    pymatrixEq ⟨[[1, 2]]⟩ (.mat ⟨[[1, 2]]⟩) = true ∧
    pymatrixEq ⟨[[1, 2]]⟩ (.str "not a matrix") = false := by
  constructor
  · exact (C6_eq_shape_and_elements ⟨[[1, 2]]⟩ ⟨[[1, 2]]⟩ (by decide)
      (by decide)).1.mpr ⟨rfl, rfl, by decide⟩
  · exact (C6_eq_shape_and_elements ⟨[[1, 2]]⟩ ⟨[[1, 2]]⟩ (by decide)
      (by decide)).2.2.1 "not a matrix"

/-- C7: on a well-formed matrix (non-empty, rectangular, `cols ≥ 1` as
the spec invariant requires), `transpose` succeeds — the result is the
matrix of the `zip(*data)` tuples — with shape `(cols, rows)` and
`result[j][i] = original[i][j]` for all valid `i`, `j`.  The embedding
is purely functional, mirroring that the source builds a fresh list of
fresh rows and never writes to the receiver. -/
theorem C7_transpose_correct (m : Pymatrix) (hne : m.data ≠ [])
    (hrect : m.Rect) (hcols : 0 < m.cols) :
    pymatrixTranspose m = .ok ⟨pyZipStar m.data⟩ ∧
    (Pymatrix.mk (pyZipStar m.data)).rows = m.cols ∧
    (Pymatrix.mk (pyZipStar m.data)).cols = m.rows ∧
    ∀ j, j < m.cols → ∀ i, i < m.rows →
      (Pymatrix.mk (pyZipStar m.data)).entry j i = m.entry i j := by
  have hzl : pyZipLen m.data = m.cols := pyZipLen_eq m.data m.cols hne hrect
  have hlen : (pyZipStar m.data).length = m.cols := by
    rw [pyZipStar_length, hzl]
  have hcol : ∀ t ∈ pyZipStar m.data, t.length = m.data.length := by
    intro t ht
    obtain ⟨k, hk, hkt⟩ := List.mem_map.mp (by
      unfold pyZipStar at ht
      exact ht)
    rw [← hkt, List.length_map]
  refine ⟨?_, ?_, ?_, ?_⟩
  · unfold pymatrixTranspose
    apply pymatrixInit_map_lst
    · exact List.ne_nil_of_length_pos (by omega)
    · intro t ht
      rw [hcol t ht]
      have hhead : (pyZipStar m.data).headD [] ∈ pyZipStar m.data :=
        headD_mem _ _ (List.ne_nil_of_length_pos (by omega))
      rw [hcol _ hhead]
  · show (pyZipStar m.data).length = m.cols
    exact hlen
  · show ((pyZipStar m.data).headD []).length = m.rows
    have hhead : (pyZipStar m.data).headD [] ∈ pyZipStar m.data :=
      headD_mem _ _ (List.ne_nil_of_length_pos (by omega))
    rw [hcol _ hhead]
    rfl
  · intro j hj i hi
    show ((pyZipStar m.data).getD j []).getD i 0
      = (m.data.getD i []).getD j 0
    exact pyZipStar_entry m.data j i (by omega) hi

/-- C7 witness: the transpose of `[[1,2,3],[4,5,6]]` is the matrix the
theorem describes. -/
theorem C7_transpose_witness :
    pymatrixTranspose mEx = .ok ⟨pyZipStar mEx.data⟩ :=
  (C7_transpose_correct mEx (by decide) (by decide) (by decide)).1

/-- C9 counterexample: the claim says a scalar access with either index
outside `[0, rows) × [0, cols)` fails with `IndexError`, but on the
well-formed matrix `[[1,2,3],[4,5,6]]` the access `M[(-1, 0)]` succeeds
and returns `4.0` (Python's negative-index convention). -/
theorem C9_negative_index_succeeds :
    pymatrixGetitem mEx (.pair (.int (-1)) (.int 0)) = .ok (.val 4) := rfl

/-- C9 (amended): a scalar access `M[(i, j)]` first normalises each index
by Python's convention (a negative index counts from the end); if both
normalised indices are in range it returns exactly the stored float
`data[i'][j']`, otherwise it fails with `IndexError`. -/
theorem C9_scalar_access_amended (m : Pymatrix) (hrect : m.Rect)
    (i j : Int) :
    (0 ≤ pyNormIdx m.rows i → pyNormIdx m.rows i < (m.rows : Int) →
     0 ≤ pyNormIdx m.cols j → pyNormIdx m.cols j < (m.cols : Int) →
      pymatrixGetitem m (.pair (.int i) (.int j))
        = .ok (.val (m.entry (pyNormIdx m.rows i).toNat
            (pyNormIdx m.cols j).toNat)))
    ∧ (¬(0 ≤ pyNormIdx m.rows i ∧ pyNormIdx m.rows i < (m.rows : Int) ∧
         0 ≤ pyNormIdx m.cols j ∧ pyNormIdx m.cols j < (m.cols : Int)) →
      pymatrixGetitem m (.pair (.int i) (.int j)) = .error .indexError) := by
  have hrows : m.data.length = m.rows := rfl
  constructor
  · intro h0 h1 h2 h3
    have hrow : pyIndex m.data i
        = .ok (m.data.getD (pyNormIdx m.data.length i).toNat default) :=
      pyIndex_ok m.data i (by rw [hrows]; exact h0) (by rw [hrows]; exact h1)
    have hmem : m.data.getD (pyNormIdx m.data.length i).toNat default
        ∈ m.data := by
      rw [List.getD_eq_getElem _ _ (by rw [hrows]; omega)]
      apply List.getElem_mem
    have hrl : (m.data.getD (pyNormIdx m.data.length i).toNat
        default).length = m.cols := hrect _ hmem
    have hcolix : pyIndex
        (m.data.getD (pyNormIdx m.data.length i).toNat default) j
        = .ok ((m.data.getD (pyNormIdx m.data.length i).toNat
            default).getD (pyNormIdx m.cols j).toNat default) := by
      have := pyIndex_ok
        (m.data.getD (pyNormIdx m.data.length i).toNat default) j
        (by rw [hrl]; exact h2) (by rw [hrl]; exact h3)
      rw [this, hrl]
    rw [pymatrixGetitem_intint]
    simp only [hrow, hcolix]
    rfl
  · intro hbad
    by_cases hrow : 0 ≤ pyNormIdx m.rows i ∧ pyNormIdx m.rows i < (m.rows : Int)
    · -- the row fetch succeeds; the column index must be out of range
      have hcolbad : ¬(0 ≤ pyNormIdx m.cols j ∧
          pyNormIdx m.cols j < (m.cols : Int)) := by
        intro hcg
        exact hbad ⟨hrow.1, hrow.2, hcg.1, hcg.2⟩
      have hrowok : pyIndex m.data i
          = .ok (m.data.getD (pyNormIdx m.data.length i).toNat default) :=
        pyIndex_ok m.data i (by rw [hrows]; exact hrow.1)
          (by rw [hrows]; exact hrow.2)
      have hmem : m.data.getD (pyNormIdx m.data.length i).toNat default
          ∈ m.data := by
        rw [List.getD_eq_getElem _ _ (by rw [hrows]; omega)]
        apply List.getElem_mem
      have hrl : (m.data.getD (pyNormIdx m.data.length i).toNat
          default).length = m.cols := hrect _ hmem
      have hcolerr : pyIndex
          (m.data.getD (pyNormIdx m.data.length i).toNat default) j
          = .error .indexError := by
        apply pyIndex_err
        rw [hrl]
        exact hcolbad
      rw [pymatrixGetitem_intint]
      simp only [hrowok, hcolerr]
    · have hrowerr : pyIndex m.data i = .error .indexError := by
        apply pyIndex_err
        rw [hrows]
        exact hrow
      rw [pymatrixGetitem_intint]
      simp only [hrowerr]

/-- C9 witness: `M[(1, 2)]` on `[[1,2,3],[4,5,6]]` returns the stored
float. -/
theorem C9_scalar_access_witness :
    pymatrixGetitem mEx (.pair (.int 1) (.int 2))
      = .ok (.val (mEx.entry (pyNormIdx mEx.rows 1).toNat
          (pyNormIdx mEx.cols 2).toNat)) :=
  (C9_scalar_access_amended mEx (by decide) 1 2).1
    (by decide) (by decide) (by decide) (by decide)

/-- C10: a tuple access whose row selector is a slice selecting zero rows
raises `IndexError` — the implementation inspects `rows[0]` to decide the
result shape, and subscripting the empty selection fails — rather than
returning an empty matrix, whatever the column selector is. -/
theorem C10_empty_row_slice_indexerror (m : Pymatrix) (s : PySlice)
    (cIdx : PyIdx) (hempty : sliceList m.data s = []) :
    pymatrixGetitem m (.pair (.slice s) cIdx) = .error .indexError := by
  show (match pymatrixGetSlice m (PyIdx.slice s) cIdx with
    | Except.error e => Except.error e
    | Except.ok p => Except.ok (GetRes.mat p)) = _
  unfold pymatrixGetSlice
  simp only [hempty, List.map_nil]

/-- C10 witness: `M[0:0, :]` on `[[1,2,3],[4,5,6]]` raises `IndexError`. -/
theorem C10_empty_row_slice_witness :
    pymatrixGetitem mEx
      (.pair (.slice ⟨some 0, some 0⟩) (.slice ⟨none, none⟩))
      = .error .indexError :=
  C10_empty_row_slice_indexerror mEx ⟨some 0, some 0⟩
    (.slice ⟨none, none⟩) (by decide)

/-- C4 counterexample: the claim says `SetRow` fails with `IndexError`
for every index outside `[0, rows)`, but on the matrix `[[1,2],[3,4]]`
the call `m[-1] = [5, 6]` succeeds (Python's negative-index convention)
and replaces the last row. -/
theorem C4_negative_index_setrow_succeeds :
    hSetRow ⟨7, 0, 2, 2⟩ (-1) [5, 6] (⟨[[[1, 2], [3, 4]]]⟩ : Heap)
      = .ok ⟨[[[1, 2], [5, 6]]]⟩ := by decide

/-- C4 (amended): `SetRow(i, newRow)` first checks the row length, so a
wrong-length row fails with `ShapeError` (`ValueError`) for every `i`,
before any mutation (in the source the `raise` precedes the assignment,
so the matrix is untouched).  With the correct length, the index is
normalised by Python's convention: in range, exactly the row at the
normalised index is replaced and every other row is unchanged; out of
range (after normalisation), the call fails with `IndexError`. -/
theorem C4_setrow_amended (m : HMatrix) (h : Heap) (i : Int)
    (v : List ℚ) (hlen : (hData m h).length = m.rows) :
    (v.length ≠ m.cols → hSetRow m i v h = .error .valueError)
    ∧ (v.length = m.cols →
        (0 ≤ pyNormIdx m.rows i → pyNormIdx m.rows i < (m.rows : Int) →
          hSetRow m i v h
            = .ok ⟨h.objs.set m.dataRef
                ((hData m h).set (pyNormIdx m.rows i).toNat v)⟩ ∧
          ((hData m h).set (pyNormIdx m.rows i).toNat v).getD
              (pyNormIdx m.rows i).toNat [] = v ∧
          ∀ k, k ≠ (pyNormIdx m.rows i).toNat →
            ((hData m h).set (pyNormIdx m.rows i).toNat v).getD k []
              = (hData m h).getD k [])
        ∧ (¬(0 ≤ pyNormIdx m.rows i ∧
              pyNormIdx m.rows i < (m.rows : Int)) →
            hSetRow m i v h = .error .indexError)) := by
  refine ⟨?_, ?_⟩
  · intro hv
    unfold hSetRow
    rw [if_pos hv]
  · intro hv
    refine ⟨?_, ?_⟩
    · intro h0 h1
      have hps : pyListSet (hData m h) i v
          = .ok ((hData m h).set (pyNormIdx m.rows i).toNat v) := by
        unfold pyListSet
        rw [hlen, if_pos ⟨h0, h1⟩]
      refine ⟨?_, ?_, ?_⟩
      · unfold hSetRow
        rw [if_neg (by omega : ¬v.length ≠ m.cols)]
        simp only [hps]
      · exact getD_set_self _ _ _ _ (by omega)
      · intro k hk
        exact getD_set_ne _ _ _ _ _ (fun hc => hk hc.symm)
    · intro hbad
      have hps : pyListSet (hData m h) i v = .error .indexError := by
        unfold pyListSet
        rw [hlen, if_neg hbad]
      unfold hSetRow
      rw [if_neg (by omega : ¬v.length ≠ m.cols)]
      simp only [hps]

/-- C4 witness: on `[[1,2],[3,4]]`, `m[1] = [9, 9]` replaces row 1. -/
theorem C4_setrow_witness :
    hSetRow ⟨7, 0, 2, 2⟩ 1 [9, 9] (⟨[[[1, 2], [3, 4]]]⟩ : Heap)
      = .ok ⟨[[[1, 2], [9, 9]]]⟩ := by
  rw [(((C4_setrow_amended ⟨7, 0, 2, 2⟩ ⟨[[[1, 2], [3, 4]]]⟩ 1 [9, 9]
    (by decide)).2 (by decide)).1 (by decide) (by decide)).1]
  decide

/-- C5 counterexample: two distinct `Pymatrix` instances constructed
from the same backing list (the constructor stores `self.data = data`
without copying) share their buffer: `SetRow` through the first changes
the observable contents of the second. -/
theorem C5_shared_buffer_interference :
    hInit 1 0 (⟨[[[1], [2]]]⟩ : Heap) = .ok ⟨1, 0, 2, 1⟩ ∧
    hInit 2 0 (⟨[[[1], [2]]]⟩ : Heap) = .ok ⟨2, 0, 2, 1⟩ ∧
    (⟨1, 0, 2, 1⟩ : HMatrix) ≠ ⟨2, 0, 2, 1⟩ ∧
    hSetRow ⟨1, 0, 2, 1⟩ 0 [9] (⟨[[[1], [2]]]⟩ : Heap)
      = .ok ⟨[[[9], [2]]]⟩ ∧
    hData ⟨2, 0, 2, 1⟩ (⟨[[[9], [2]]]⟩ : Heap)
      ≠ hData ⟨2, 0, 2, 1⟩ (⟨[[[1], [2]]]⟩ : Heap) := by
  decide

/-- C5 (amended): instances may share a backing buffer when constructed
from the same list object, and `SetRow` through one then changes the
other; but whenever two instances have distinct backing buffers — as is
the case for every instance produced by `copy`, slicing, `zeros`,
`random` or `from_numpy`, which all build fresh lists — `SetRow` on one
never changes the observable contents of the other. -/
theorem C5_distinct_buffers_no_interference (m1 m2 : HMatrix)
    (h h' : Heap) (i : Int) (v : List ℚ)
    (hne : m1.dataRef ≠ m2.dataRef)
    (hs : hSetRow m1 i v h = .ok h') :
    hData m2 h' = hData m2 h :=
  hSetRow_frame m1 m2 h h' i v hne hs

/-- C5 witness: writing through a matrix backed by object 0 leaves a
matrix backed by object 1 unchanged. -/
theorem C5_distinct_buffers_witness :
    hData ⟨2, 1, 1, 1⟩ (⟨[[[9], [2]], [[3]]]⟩ : Heap)
      = hData ⟨2, 1, 1, 1⟩ (⟨[[[1], [2]], [[3]]]⟩ : Heap) :=
  C5_distinct_buffers_no_interference ⟨1, 0, 2, 1⟩ ⟨2, 1, 1, 1⟩
    ⟨[[[1], [2]], [[3]]]⟩ ⟨[[[9], [2]], [[3]]]⟩ 0 [9]
    (by decide) (by decide)

/-- C8: `copy()` of a well-formed matrix succeeds, produces an instance
with the same shape that compares equal to the original, and its buffer
is freshly allocated (a different reference), so `SetRow` on the copy
never changes the original and `SetRow` on the original never changes
the copy. -/
theorem C8_copy_independent (m : HMatrix) (h : Heap)
    (hne : hData m h ≠ [])
    (hrect : ∀ r ∈ hData m h, r.length = ((hData m h).headD []).length)
    (href : m.dataRef < h.objs.length)
    (hrows : m.rows = (hData m h).length)
    (hcols : m.cols = ((hData m h).headD []).length) :
    ∃ c h2, hCopy m h = .ok (c, h2) ∧
      c.dataRef ≠ m.dataRef ∧
      c.rows = m.rows ∧ c.cols = m.cols ∧
      hEq c m h2 = true ∧
      (∀ i v h3, hSetRow c i v h2 = .ok h3 → hData m h3 = hData m h2) ∧
      (∀ i v h3, hSetRow m i v h2 = .ok h3 → hData c h3 = hData c h2) := by
  obtain ⟨d0, rest, hd⟩ : ∃ d0 rest, hData m h = d0 :: rest := by
    cases hdm : hData m h with
    | nil => exact absurd hdm hne
    | cons a t => exact ⟨a, t, rfl⟩
  have hget : Heap.get ⟨h.objs ++ [hData m h]⟩ h.objs.length = hData m h := by
    show (h.objs ++ [hData m h]).getD h.objs.length [] = hData m h
    rw [List.getD_append_right _ _ _ _ (le_refl _), Nat.sub_self]
    rfl
  have hall : (hData m h).all
      (fun row => row.length = ((hData m h).headD []).length) = true := by
    apply List.all_eq_true.mpr
    intro x hx
    exact decide_eq_true (hrect x hx)
  rw [hd, List.headD_cons] at hall
  have hin : hInit h.objs.length h.objs.length ⟨h.objs ++ [hData m h]⟩
      = .ok ⟨h.objs.length, h.objs.length, (hData m h).length,
          ((hData m h).headD []).length⟩ := by
    rw [hd] at hget ⊢
    unfold hInit
    simp only [hget, List.headD_cons]
    rw [if_pos hall]
  refine ⟨⟨h.objs.length, h.objs.length, (hData m h).length,
      ((hData m h).headD []).length⟩, ⟨h.objs ++ [hData m h]⟩,
      ?_, ?_, ?_, ?_, ?_, ?_, ?_⟩
  · unfold hCopy
    simp only [map_drop_zero, hin]
  · show h.objs.length ≠ m.dataRef
    omega
  · exact hrows.symm
  · exact hcols.symm
  · have h1 : hData
        (⟨h.objs.length, h.objs.length, (hData m h).length,
          ((hData m h).headD []).length⟩ : HMatrix)
        ⟨h.objs ++ [hData m h]⟩ = hData m h := hget
    have h2 : hData m ⟨h.objs ++ [hData m h]⟩ = hData m h := by
      show (h.objs ++ [hData m h]).getD m.dataRef [] = hData m h
      rw [List.getD_append _ _ _ _ href]
      rfl
    unfold hEq
    rw [h1, h2]
    exact decide_eq_true rfl
  · intro i v h3 hs
    exact hSetRow_frame _ m _ _ i v (by show h.objs.length ≠ m.dataRef; omega)
      hs
  · intro i v h3 hs
    exact hSetRow_frame m _ _ _ i v (by show m.dataRef ≠ h.objs.length; omega)
      hs

/-- C8 witness: copying the 1×1 matrix `[[5]]` yields an equal,
independently backed instance. -/
theorem C8_copy_witness :
    ∃ c h2, hCopy ⟨3, 0, 1, 1⟩ (⟨[[[5]]]⟩ : Heap) = .ok (c, h2) ∧
      c.dataRef ≠ (⟨3, 0, 1, 1⟩ : HMatrix).dataRef ∧
      c.rows = (⟨3, 0, 1, 1⟩ : HMatrix).rows ∧
      c.cols = (⟨3, 0, 1, 1⟩ : HMatrix).cols ∧
      hEq c ⟨3, 0, 1, 1⟩ h2 = true ∧
      (∀ i v h3, hSetRow c i v h2 = .ok h3 →
        hData ⟨3, 0, 1, 1⟩ h3 = hData ⟨3, 0, 1, 1⟩ h2) ∧
      (∀ i v h3, hSetRow ⟨3, 0, 1, 1⟩ i v h2 = .ok h3 →
        hData c h3 = hData c h2) :=
  C8_copy_independent ⟨3, 0, 1, 1⟩ ⟨[[[5]]]⟩ (by decide) (by decide)
    (by decide) (by decide) (by decide)
